import Mathlib

/-
Verification of the virtio balloon driver (drivers/virtio/virtio_balloon.c):
a shallow embedding of the balloon ledger, the legacy pfn-array path, the
run-length bitmap/chunk encoding path, the size-negotiation step, the
migration swap protocol and the unused-page inquiry responder, together
with theorems about the specified properties.

Machine integers are modelled as Nat.  The external collaborators
(page allocator, virtqueue transport) are modelled as oracles: the
allocator as a function returning Option page-frame-numbers, the
transport as always accepting a submitted buffer (the success path of
virtqueue_add_outbuf), which is the regime every functional claim is
about.  Loops are written with an explicit fuel argument whose value at
each call site is large enough that the fuel never runs out before the
loop condition fails; the fuel-exhausted branch returns the same shape
as the loop-exit branch.
-/

namespace VirtioBalloon

/- Constants from the source (BITS_PER_LONG and PAGE_SIZE for the common
   64-bit configuration with 4 KB pages). -/
def BITS_PER_LONG : Nat := 64
def BITS_PER_BYTE : Nat := 8
def PAGE_SIZE : Nat := 4096
def PAGE_BMAP_SIZE : Nat := 8 * PAGE_SIZE
def PFNS_PER_PAGE_BMAP : Nat := PAGE_BMAP_SIZE * BITS_PER_BYTE
def PAGE_BMAP_COUNT_MAX : Nat := 32
def MAX_PAGE_CHUNKS : Nat := 4096
def VIRTIO_BALLOON_ARRAY_PFNS_MAX : Nat := 256
def ULONG_MAX : Nat := 2 ^ 64 - 1

/-- Modelled from the spec: the wire format scales chunk base and size by
fixed shifts (the uapi header virtio_balloon.h is not part of src).  The
concrete value does not matter to any claim; 12 matches the page shift. -/
def VIRTIO_BALLOON_CHUNK_BASE_SHIFT : Nat := 12

/-- Modelled from the spec: fixed scale factor of the chunk size field. -/
def VIRTIO_BALLOON_CHUNK_SIZE_SHIFT : Nat := 12

/-- Kernel macro roundup(x, y) = ((x + y - 1) / y) * y. -/
def roundup (x y : Nat) : Nat := ((x + y - 1) / y) * y

/-- Kernel macro rounddown(x, y) = (x / y) * y. -/
def rounddown (x y : Nat) : Nat := x / y * y

/-
The balloon ledger: vb->num_pages (counter in balloon page units) and
vb_dev_info->pages (the list of surrendered allocator pages, stored by
their page frame number; balloon_page_enqueue inserts at the head).
The parameter K is VIRTIO_BALLOON_PAGES_PER_PAGE.
-/
structure BalloonState where
  num_pages : Nat
  pages : List Nat
deriving Repr, DecidableEq

def initialBalloon : BalloonState := { num_pages := 0, pages := [] }

/-- The ledger invariant: the surrendered-page counter equals K times the
number of pages held in the ledger collection. -/
def ledgerInv (K : Nat) (s : BalloonState) : Prop :=
  s.num_pages = K * s.pages.length

instance (K : Nat) (s : BalloonState) : Decidable (ledgerInv K s) := by
  unfold ledgerInv; infer_instance

/-
fill_balloon loop (virtio_balloon.c lines 440-460): while num_pfns < num,
call balloon_page_enqueue (the allocator oracle alloc, indexed by call
number i); on failure break early; on success record the page, push it on
the ledger list and add K to num_pages.  The per-page bitmap-range update
and pfn-array writes do not change the ledger and are modelled on the
paths that need them.  Fuel: each iteration adds K to num_pfns, so for
K at least 1 the loop runs at most num iterations; fuel = num suffices.
-/
def fill_loop (K num : Nat) (alloc : Nat → Option Nat) :
    Nat → Nat → Nat → BalloonState → BalloonState × Nat
  | 0, _, num_pfns, s => (s, num_pfns)
  | fuel+1, i, num_pfns, s =>
    if num_pfns < num then
      match alloc i with
      | none => (s, num_pfns)
      | some p =>
        fill_loop K num alloc fuel (i+1) (num_pfns + K)
          { num_pages := s.num_pages + K, pages := p :: s.pages }
    else (s, num_pfns)

/-- fill_balloon (lines 424-474): on the legacy path the request is first
clamped to one pfn-array worth, min(num, ARRAY_SIZE(vb->pfns)); the
chunking path keeps num and resets the pfn range instead.  Returns the
new ledger state and num_allocated_pages (= vb->num_pfns, balloon units). -/
def fill_balloon (K : Nat) (chunking : Bool) (num0 : Nat)
    (alloc : Nat → Option Nat) (s : BalloonState) : BalloonState × Nat :=
  let num := if chunking then num0 else min num0 VIRTIO_BALLOON_ARRAY_PFNS_MAX
  fill_loop K num alloc num 0 0 s

/-- The pfn array written by set_page_pfns, modelled as a function from
array index to the stored balloon pfn value.  set_page_pfns (lines
366-378) writes pfns[idx + i] = page_to_balloon_pfn(page) + i for
i < K, where page_to_balloon_pfn(page) = pfn * K. -/
def set_page_pfns (K : Nat) (arr : Nat → Nat) (idx pagePfn : Nat) : Nat → Nat :=
  fun j => if idx ≤ j ∧ j < idx + K then pagePfn * K + (j - idx) else arr j

/-- Result of the leak_balloon dequeue loop: ledger state, the pfn array,
vb->num_pfns, and the local pages list (list_add inserts at the head). -/
structure LeakResult where
  s : BalloonState
  arr : Nat → Nat
  num_pfns : Nat
  removed : List Nat

/-
leak_balloon loop (lines 510-522): while num_pfns < num, dequeue a page
from the ledger (balloon_page_dequeue; head of the list; none when the
list is empty), then set_page_pfns is called unconditionally (line 515)
and, on the non-chunking branch, called a second time with the same
arguments (line 519); the page moves to the local list and num_pages
drops by K.  Fuel = num suffices for K at least 1 as in fill_loop.
-/
def leak_loop (K num : Nat) (chunking : Bool) :
    Nat → Nat → BalloonState → (Nat → Nat) → List Nat → LeakResult
  | 0, num_pfns, s, arr, rem => ⟨s, arr, num_pfns, rem⟩
  | fuel+1, num_pfns, s, arr, rem =>
    if num_pfns < num then
      match s.pages with
      | [] => ⟨s, arr, num_pfns, rem⟩
      | p :: rest =>
        let arr1 := set_page_pfns K arr num_pfns p
        let arr2 := if chunking then arr1 else set_page_pfns K arr1 num_pfns p
        leak_loop K num chunking fuel (num_pfns + K)
          { num_pages := s.num_pages - K, pages := rest } arr2 (p :: rem)
    else ⟨s, arr, num_pfns, rem⟩

/-- leak_balloon (lines 490-539): the chunking branch resets the pfn range
while the non-chunking branch clamps num to one array worth (line 502);
line 505 then clamps to one array worth unconditionally in both modes,
and line 509 clamps to the current number of taken pages.  Returns the
full loop result; num_freed_pages is the num_pfns field. -/
def leak_balloon (K : Nat) (chunking : Bool) (num0 : Nat)
    (s : BalloonState) (arr : Nat → Nat) : LeakResult :=
  let num1 := if chunking then num0 else min num0 VIRTIO_BALLOON_ARRAY_PFNS_MAX
  let num2 := min num1 VIRTIO_BALLOON_ARRAY_PFNS_MAX
  let num3 := min num2 s.num_pages
  leak_loop K num3 chunking num3 0 s arr []

/-- A grow or shrink request as driven by the size-negotiation worker or
the OOM notifier: the operation kind, the requested amount and, for
grow, the allocator oracle of that call. -/
inductive BalloonOp where
  | fill (chunking : Bool) (num : Nat) (alloc : Nat → Option Nat)
  | leak (chunking : Bool) (num : Nat)

def runOp (K : Nat) (s : BalloonState) : BalloonOp → BalloonState
  | .fill c n a => (fill_balloon K c n a s).1
  | .leak c n => (leak_balloon K c n s (fun _ => 0)).s

def runOps (K : Nat) (ops : List BalloonOp) : BalloonState :=
  ops.foldl (runOp K) initialBalloon

lemma fill_loop_inv (K num : Nat) (alloc : Nat → Option Nat) :
    ∀ fuel i num_pfns s, ledgerInv K s →
      ledgerInv K (fill_loop K num alloc fuel i num_pfns s).1 := by
  intro fuel
  induction fuel with
  | zero => intro i np s h; simpa [fill_loop] using h
  | succ fuel ih =>
    intro i np s h
    by_cases hlt : np < num
    · rcases halloc : alloc i with _ | p
      · simpa [fill_loop, hlt, halloc] using h
      · have h2 : ledgerInv K { num_pages := s.num_pages + K, pages := p :: s.pages } := by
          simp only [ledgerInv] at h ⊢
          simp [h, List.length_cons, Nat.mul_succ]
        simpa [fill_loop, hlt, halloc] using ih (i+1) (np + K) _ h2
    · simpa [fill_loop, hlt] using h

lemma leak_loop_inv (K num : Nat) (chunking : Bool) :
    ∀ fuel num_pfns s arr rem, ledgerInv K s →
      ledgerInv K (leak_loop K num chunking fuel num_pfns s arr rem).s := by
  intro fuel
  induction fuel with
  | zero => intro np s arr rem h; simpa [leak_loop] using h
  | succ fuel ih =>
    intro np s arr rem h
    by_cases hlt : np < num
    · rcases hp : s.pages with _ | ⟨p, rest⟩
      · simpa [leak_loop, hlt, hp] using h
      · have h2 : ledgerInv K { num_pages := s.num_pages - K, pages := rest } := by
          simp only [ledgerInv] at h ⊢
          rw [h, hp, List.length_cons, Nat.mul_succ, Nat.add_sub_cancel]
        simpa [leak_loop, hlt, hp] using ih (np + K) _ _ _ h2
    · simpa [leak_loop, hlt] using h

lemma runOp_inv (K : Nat) (s : BalloonState) (op : BalloonOp)
    (h : ledgerInv K s) : ledgerInv K (runOp K s op) := by
  cases op with
  | fill c n a => exact fill_loop_inv K _ a _ 0 0 s h
  | leak c n => exact leak_loop_inv K _ c _ 0 s _ [] h

/-- Claim C1: for every reachable state produced by any sequence of grow
(fill_balloon) and shrink (leak_balloon) calls, the surrendered-page
counter num_pages equals VIRTIO_BALLOON_PAGES_PER_PAGE (K) times the
number of pages held in the ledger page collection. -/
theorem C1_ledger_counter_invariant (K : Nat) (ops : List BalloonOp) :
    ledgerInv K (runOps K ops) := by
  have aux : ∀ (l : List BalloonOp) (s : BalloonState), ledgerInv K s →
      ledgerInv K (l.foldl (runOp K) s) := by
    intro l
    induction l with
    | nil => intro s h; simpa using h
    | cons op l ih =>
      intro s h
      exact ih _ (runOp_inv K s op h)
  exact aux ops initialBalloon (by simp [ledgerInv, initialBalloon])

/-
Chunk descriptor counting (add_one_chunk, lines 264-290, and
send_page_chunks, lines 224-262).  The header field hdr->chunks counts
descriptors in the buffer; add_one_chunk writes a descriptor, increments
the count, and when it hits MAX_PAGE_CHUNKS calls send_page_chunks,
which submits the buffer and, once the transport acknowledges (success
path of virtqueue_add_outbuf), resets hdr->chunks to 0.  The model
counts flushes.
-/
structure ChunkHdr where
  chunks : Nat
  flushes : Nat
deriving Repr, DecidableEq

def send_page_chunks_count (h : ChunkHdr) : ChunkHdr :=
  { chunks := 0, flushes := h.flushes + 1 }

def add_one_chunk_count (h : ChunkHdr) : ChunkHdr :=
  let h1 : ChunkHdr := { h with chunks := h.chunks + 1 }
  if h1.chunks = MAX_PAGE_CHUNKS then send_page_chunks_count h1 else h1

/-- A sequence of n add_one_chunk calls within one pass. -/
def add_chunks : Nat → ChunkHdr → ChunkHdr
  | 0, h => h
  | n+1, h => add_chunks n (add_one_chunk_count h)

lemma add_chunks_closed_form :
    ∀ (n : Nat) (h : ChunkHdr), h.chunks < MAX_PAGE_CHUNKS →
      add_chunks n h =
        { chunks := (h.chunks + n) % MAX_PAGE_CHUNKS,
          flushes := h.flushes + (h.chunks + n) / MAX_PAGE_CHUNKS } := by
  intro n
  induction n with
  | zero =>
    intro h hlt
    simp [add_chunks, Nat.mod_eq_of_lt hlt, Nat.div_eq_of_lt hlt]
  | succ n ih =>
    intro h hlt
    rw [add_chunks]
    by_cases hcap : h.chunks + 1 = MAX_PAGE_CHUNKS
    · rw [show add_one_chunk_count h = { chunks := 0, flushes := h.flushes + 1 } by
        simp [add_one_chunk_count, send_page_chunks_count, hcap]]
      rw [ih _ (by simp [MAX_PAGE_CHUNKS])]
      simp only [ChunkHdr.mk.injEq, MAX_PAGE_CHUNKS] at hcap ⊢
      constructor <;> omega
    · rw [show add_one_chunk_count h = { h with chunks := h.chunks + 1 } by
        simp [add_one_chunk_count, hcap]]
      rw [ih { h with chunks := h.chunks + 1 }
        (by simp only [MAX_PAGE_CHUNKS] at hlt hcap ⊢; omega)]
      simp only [ChunkHdr.mk.injEq, MAX_PAGE_CHUNKS]
      constructor <;> omega

/-- Claim C4: for every sequence of add_one_chunk calls within one pass,
the descriptor count never exceeds MAX_PAGE_CHUNKS; whenever the count
reaches the cap exactly one mid-scan flush (send_page_chunks) happens
and the post-flush count is zero before the scan continues: after n
calls from an empty buffer the count is n mod MAX_PAGE_CHUNKS and
exactly n div MAX_PAGE_CHUNKS flushes have happened, and the call that
reaches the cap flushes once and resets the count to zero. -/
theorem C4_chunk_cap_flush_reset (n f : Nat) :
    add_chunks n { chunks := 0, flushes := 0 } =
      { chunks := n % MAX_PAGE_CHUNKS, flushes := n / MAX_PAGE_CHUNKS }
    ∧ (add_chunks n { chunks := 0, flushes := 0 }).chunks < MAX_PAGE_CHUNKS
    ∧ add_one_chunk_count { chunks := MAX_PAGE_CHUNKS - 1, flushes := f } =
        { chunks := 0, flushes := f + 1 } := by
  refine ⟨?_, ?_, ?_⟩
  · simpa using add_chunks_closed_form n { chunks := 0, flushes := 0 }
      (by simp [MAX_PAGE_CHUNKS])
  · rw [(add_chunks_closed_form n { chunks := 0, flushes := 0 }
      (by simp [MAX_PAGE_CHUNKS]))]
    exact Nat.mod_lt _ (by simp [MAX_PAGE_CHUNKS])
  · simp [add_one_chunk_count, send_page_chunks_count, MAX_PAGE_CHUNKS]

lemma fill_loop_succ_step (K num : Nat) (alloc : Nat → Option Nat)
    (fuel i num_pfns : Nat) (s : BalloonState) (p : Nat)
    (hlt : num_pfns < num) (halloc : alloc i = some p) :
    fill_loop K num alloc (fuel+1) i num_pfns s
      = fill_loop K num alloc fuel (i+1) (num_pfns + K)
          { num_pages := s.num_pages + K, pages := p :: s.pages } := by
  simp [fill_loop, hlt, halloc]

lemma leak_loop_succ_step (K num : Nat) (chunking : Bool)
    (fuel num_pfns : Nat) (s : BalloonState) (arr : Nat → Nat)
    (rem : List Nat) (p : Nat) (rest : List Nat)
    (hlt : num_pfns < num) (hp : s.pages = p :: rest) :
    leak_loop K num chunking (fuel+1) num_pfns s arr rem
      = leak_loop K num chunking fuel (num_pfns + K)
          { num_pages := s.num_pages - K, pages := rest }
          (if chunking then set_page_pfns K arr num_pfns p
           else set_page_pfns K (set_page_pfns K arr num_pfns p) num_pfns p)
          (p :: rem) := by
  simp [leak_loop, hlt, hp]

lemma fill_loop_num_pages (K num : Nat) (alloc : Nat → Option Nat) :
    ∀ fuel i num_pfns s,
      (fill_loop K num alloc fuel i num_pfns s).1.num_pages + num_pfns
        = s.num_pages + (fill_loop K num alloc fuel i num_pfns s).2 := by
  intro fuel
  induction fuel with
  | zero => intro i np s; simp [fill_loop]
  | succ fuel ih =>
    intro i np s
    by_cases hlt : np < num
    · rcases halloc : alloc i with _ | p
      · simp [fill_loop, hlt, halloc]
      · rw [fill_loop_succ_step K num alloc fuel i np s p hlt halloc]
        have := ih (i+1) (np + K)
          { num_pages := s.num_pages + K, pages := p :: s.pages }
        dsimp only at this
        omega
    · simp [fill_loop, hlt]

lemma leak_loop_acct (K num : Nat) (chunking : Bool) :
    ∀ fuel num_pfns s arr rem, ledgerInv K s →
      ∃ d, (leak_loop K num chunking fuel num_pfns s arr rem).num_pfns = num_pfns + d
        ∧ (leak_loop K num chunking fuel num_pfns s arr rem).s.num_pages + d
            = s.num_pages := by
  intro fuel
  induction fuel with
  | zero => intro np s arr rem _; exact ⟨0, by simp [leak_loop]⟩
  | succ fuel ih =>
    intro np s arr rem hinv
    by_cases hlt : np < num
    · rcases hp : s.pages with _ | ⟨p, rest⟩
      · exact ⟨0, by simp [leak_loop, hlt, hp]⟩
      · have hKle : K * rest.length + K = s.num_pages := by
          rw [hinv, hp, List.length_cons, Nat.mul_succ]
        have hinv2 : ledgerInv K { num_pages := s.num_pages - K, pages := rest } := by
          simp only [ledgerInv]; omega
        rcases ih (np + K) { num_pages := s.num_pages - K, pages := rest }
            (if chunking then set_page_pfns K arr np p
             else set_page_pfns K (set_page_pfns K arr np p) np p) (p :: rem) hinv2
          with ⟨d, hd1, hd2⟩
        rw [leak_loop_succ_step K num chunking fuel np s arr rem p rest hlt hp]
        dsimp only at hd2
        exact ⟨K + d, by omega, by omega⟩
    · exact ⟨0, by simp [leak_loop, hlt]⟩

lemma leak_loop_ret_le (K num : Nat) (chunking : Bool) :
    ∀ fuel num_pfns s arr rem,
      (leak_loop K num chunking fuel num_pfns s arr rem).num_pfns
        ≤ max num_pfns (num + K - 1) := by
  intro fuel
  induction fuel with
  | zero => intro np s arr rem; simp [leak_loop]
  | succ fuel ih =>
    intro np s arr rem
    by_cases hlt : np < num
    · rcases hp : s.pages with _ | ⟨p, rest⟩
      · simp [leak_loop, hlt, hp]
      · rw [leak_loop_succ_step K num chunking fuel np s arr rem p rest hlt hp]
        have := ih (np + K) { num_pages := s.num_pages - K, pages := rest }
          (if chunking then set_page_pfns K arr np p
           else set_page_pfns K (set_page_pfns K arr np p) np p) (p :: rem)
        omega
    · simp [leak_loop, hlt]

lemma leak_loop_ret_dvd (K num : Nat) (chunking : Bool) :
    ∀ fuel num_pfns s arr rem, K ∣ num_pfns →
      K ∣ (leak_loop K num chunking fuel num_pfns s arr rem).num_pfns := by
  intro fuel
  induction fuel with
  | zero => intro np s arr rem h; simpa [leak_loop] using h
  | succ fuel ih =>
    intro np s arr rem h
    by_cases hlt : np < num
    · rcases hp : s.pages with _ | ⟨p, rest⟩
      · simpa [leak_loop, hlt, hp] using h
      · rw [leak_loop_succ_step K num chunking fuel np s arr rem p rest hlt hp]
        exact ih (np + K) { num_pages := s.num_pages - K, pages := rest }
          (if chunking then set_page_pfns K arr np p
           else set_page_pfns K (set_page_pfns K arr np p) np p) (p :: rem)
          (Dvd.dvd.add h (dvd_refl K))
    · simpa [leak_loop, hlt] using h

/-- Claim C10: a single leak_balloon call removes at most
VIRTIO_BALLOON_ARRAY_PFNS_MAX (256) balloon units, in both encoding
modes, because the request is clamped to the flat-array capacity before
the removal loop (line 505 applies unconditionally).  Stated for every
K dividing 256, which covers every power-of-two page-size ratio up to
the array capacity. -/
theorem C10_leak_clamped_both_modes (K : Nat) (chunking : Bool) (num0 : Nat)
    (s : BalloonState) (arr : Nat → Nat)
    (hK : K ∣ VIRTIO_BALLOON_ARRAY_PFNS_MAX) :
    (leak_balloon K chunking num0 s arr).num_pfns
      ≤ VIRTIO_BALLOON_ARRAY_PFNS_MAX := by
  have hKpos : 0 < K := by
    rcases Nat.eq_zero_or_pos K with h0 | h; · simp [h0, VIRTIO_BALLOON_ARRAY_PFNS_MAX] at hK
    · exact h
  unfold leak_balloon
  set num1 := if chunking then num0 else min num0 VIRTIO_BALLOON_ARRAY_PFNS_MAX with hn1
  set num2 := min num1 VIRTIO_BALLOON_ARRAY_PFNS_MAX with hn2
  set num3 := min num2 s.num_pages with hn3
  have h3 : num3 ≤ VIRTIO_BALLOON_ARRAY_PFNS_MAX := by
    calc num3 ≤ num2 := Nat.min_le_left _ _
    _ ≤ VIRTIO_BALLOON_ARRAY_PFNS_MAX := Nat.min_le_right _ _
  have hle := leak_loop_ret_le K num3 chunking num3 0 s arr []
  have hdvd := leak_loop_ret_dvd K num3 chunking num3 0 s arr [] (dvd_zero K)
  rcases hdvd with ⟨m, hm⟩
  rcases hK with ⟨t, ht⟩
  rw [hm]
  rw [hm] at hle
  have hmt : m ≤ t := by
    by_contra hmt
    have h1 : t + 1 ≤ m := by omega
    have h2 : K * (t + 1) ≤ K * m := Nat.mul_le_mul_left K h1
    rw [Nat.mul_succ, ← ht] at h2
    omega
  calc K * m ≤ K * t := Nat.mul_le_mul_left K hmt
  _ = VIRTIO_BALLOON_ARRAY_PFNS_MAX := ht.symm

/-- Closed witness for C10: K = 16 divides 256, and a shrink request of
1000 balloon units with the chunking feature negotiated removes exactly
256 units, within the stated bound. -/
theorem C10_leak_clamped_both_modes_witness :
    (16 : Nat) ∣ VIRTIO_BALLOON_ARRAY_PFNS_MAX
    ∧ (leak_balloon 16 true 1000
        { num_pages := 600, pages := List.range 60 } (fun _ => 0)).num_pfns
      ≤ VIRTIO_BALLOON_ARRAY_PFNS_MAX :=
  ⟨by decide, C10_leak_clamped_both_modes 16 true 1000
      { num_pages := 600, pages := List.range 60 } (fun _ => 0) (by decide)⟩

/-- towards_target (lines 623-637): signed delta between the target read
from the configuration register and the current num_pages. -/
def towards_target (target : Nat) (s : BalloonState) : Int :=
  (target : Int) - (s.num_pages : Int)

/-- Result of one step of update_balloon_size_func: the new ledger state,
the value written to the actual field of the configuration register by
update_balloon_size (lines 639-649, always vb->num_pages), and whether
the work item was re-queued (line 707-708, if diff is still non-zero). -/
structure SizeStepResult where
  state : BalloonState
  published : Nat
  requeue : Bool
deriving Repr

/-- update_balloon_size_func (lines 692-709): read the delta; if positive
fill_balloon(diff) and subtract what was added, if negative
leak_balloon(-diff) and add back what was removed; then publish the new
current size unconditionally; re-queue the same work iff the remaining
delta is non-zero. -/
def update_balloon_size_func (K : Nat) (chunking : Bool) (target : Nat)
    (alloc : Nat → Option Nat) (arr : Nat → Nat) (s : BalloonState) :
    SizeStepResult :=
  let diff := towards_target target s
  let step : BalloonState × Int :=
    if diff > 0 then
      let r := fill_balloon K chunking diff.toNat alloc s
      (r.1, diff - (r.2 : Int))
    else if diff < 0 then
      let r := leak_balloon K chunking (-diff).toNat s arr
      (r.s, diff + (r.num_pfns : Int))
    else (s, diff)
  { state := step.1, published := step.1.num_pages,
    requeue := decide (step.2 ≠ 0) }

/-- Claim C5: after every step of the size-negotiation state machine the
new current size is published to the configuration register
unconditionally, and the work is re-enqueued exactly when the remaining
delta is non-zero, which happens exactly when the published size still
differs from the target. -/
theorem C5_publish_and_requeue (K : Nat) (chunking : Bool) (target : Nat)
    (alloc : Nat → Option Nat) (arr : Nat → Nat) (s : BalloonState)
    (hinv : ledgerInv K s) :
    (update_balloon_size_func K chunking target alloc arr s).published
      = (update_balloon_size_func K chunking target alloc arr s).state.num_pages
    ∧ ((update_balloon_size_func K chunking target alloc arr s).requeue = false
        ↔ (update_balloon_size_func K chunking target alloc arr s).state.num_pages
            = target) := by
  refine ⟨rfl, ?_⟩
  have ht : towards_target target s = (target : Int) - (s.num_pages : Int) := rfl
  unfold update_balloon_size_func
  by_cases hpos : towards_target target s > 0
  · have hfill := fill_loop_num_pages K
      (if chunking then (towards_target target s).toNat
       else min (towards_target target s).toNat VIRTIO_BALLOON_ARRAY_PFNS_MAX)
      alloc
      (if chunking then (towards_target target s).toNat
       else min (towards_target target s).toNat VIRTIO_BALLOON_ARRAY_PFNS_MAX)
      0 0 s
    simp only [hpos, if_pos, fill_balloon]
    simp only [decide_eq_false_iff_not, ne_eq, not_not]
    constructor <;> intro h <;> omega
  · by_cases hneg : towards_target target s < 0
    · rcases leak_loop_acct K
        (min (min (if chunking then (-towards_target target s).toNat
                   else min (-towards_target target s).toNat
                            VIRTIO_BALLOON_ARRAY_PFNS_MAX)
                  VIRTIO_BALLOON_ARRAY_PFNS_MAX) s.num_pages)
        chunking
        (min (min (if chunking then (-towards_target target s).toNat
                   else min (-towards_target target s).toNat
                            VIRTIO_BALLOON_ARRAY_PFNS_MAX)
                  VIRTIO_BALLOON_ARRAY_PFNS_MAX) s.num_pages)
        0 s arr [] hinv with ⟨d, hd1, hd2⟩
      simp only [hpos, hneg, if_pos, if_neg, if_false, leak_balloon]
      simp only [decide_eq_false_iff_not, ne_eq, not_not]
      constructor <;> intro h <;> omega
    · have hz : towards_target target s = 0 := by omega
      simp only [hpos, hneg, if_neg, if_false]
      simp only [decide_eq_false_iff_not, ne_eq, not_not]
      constructor <;> intro h <;> omega

/-- Closed witness for C5: from an empty ledger with target 2 and a
never-exhausting allocator (K = 1), the step publishes the new size,
reaches the target in one fill, and does not re-queue. -/
theorem C5_publish_and_requeue_witness :
    ledgerInv 1 initialBalloon
    ∧ ((update_balloon_size_func 1 false 2 (fun i => some i)
          (fun _ => 0) initialBalloon).published
        = (update_balloon_size_func 1 false 2 (fun i => some i)
            (fun _ => 0) initialBalloon).state.num_pages
      ∧ ((update_balloon_size_func 1 false 2 (fun i => some i)
            (fun _ => 0) initialBalloon).requeue = false
          ↔ (update_balloon_size_func 1 false 2 (fun i => some i)
              (fun _ => 0) initialBalloon).state.num_pages = 2)) :=
  ⟨by decide, C5_publish_and_requeue 1 false 2 (fun i => some i)
      (fun _ => 0) initialBalloon (by decide)⟩

/-- The legacy (non-chunking) grow path as a whole: fill_balloon and the
number of flushes it performs; on the legacy path tell_host is invoked
once iff any page was obtained (lines 463-470), and each legacy
tell_host is one submit-kick-wait cycle (lines 348-363). -/
def fill_balloon_legacy (K num0 : Nat) (alloc : Nat → Option Nat)
    (s : BalloonState) : BalloonState × Nat × Nat :=
  let r := fill_balloon K false num0 alloc s
  (r.1, r.2, if r.2 ≠ 0 then 1 else 0)

/-- Counterexample to claim C6: a single fill_balloon(1024) with K = 16
on a never-exhausting allocator does not make the ledger 1024 balloon
units; the request is clamped to the 256-entry pfn array (256 balloon
units = 16 allocator pages), so the ledger becomes 256. -/
theorem C6_single_grow_1024_counterexample :
    (fill_balloon_legacy 16 1024 (fun i => some i) initialBalloon).1.num_pages = 256
    ∧ (fill_balloon_legacy 16 1024 (fun i => some i) initialBalloon).2.1 = 256
    ∧ ¬ (fill_balloon_legacy 16 1024 (fun i => some i)
          initialBalloon).1.num_pages = 1024 := by
  decide

/-- Claim C6 as amended: a single fill_balloon(1024) with K = 16 on a
never-exhausting allocator adds min(1024, 256) = 256 balloon units
(16 allocator pages) to the ledger and performs exactly one flush on
the legacy flat-array path; the 1024-unit target is only reached after
the negotiation loop re-enters. -/
theorem C6_single_grow_1024_amended :
    (fill_balloon_legacy 16 1024 (fun i => some i) initialBalloon).1.num_pages = 256
    ∧ (fill_balloon_legacy 16 1024 (fun i => some i) initialBalloon).2.1 = 256
    ∧ (fill_balloon_legacy 16 1024 (fun i => some i) initialBalloon).2.2 = 1
    ∧ (fill_balloon_legacy 16 1024 (fun i => some i)
        initialBalloon).1.pages.length = 16 := by
  decide

/-
The run-length bitmap/chunk encoding path (PAGE_CHUNK_TYPE_BALLOON).
A bitmap window is modelled by the list of its set bit positions; the
library primitives find_next_bit and find_next_zero_bit are external
collaborators modelled by their contract: the least set (resp. unset)
bit index in [pos, en), or en when there is none.
-/

/-- find_next_bit over a bitmap given as the list of set positions: the
least set position in [pos, en), or en if none. -/
def find_next_bit (bits : List Nat) (en pos : Nat) : Nat :=
  bits.foldl (fun acc b => if pos ≤ b ∧ b < en ∧ b < acc then b else acc) en

/-- Search loop of find_next_zero_bit: advance while the position is set.
The fuel starts at bits.length + 1, enough because each advance consumes
a distinct set position. -/
def find_next_zero_go (bits : List Nat) (en : Nat) : Nat → Nat → Nat
  | 0, _ => en
  | fuel+1, pos =>
    if pos < en then
      (if bits.contains pos then find_next_zero_go bits en fuel (pos+1) else pos)
    else en

/-- find_next_zero_bit: the least position in [pos, en) that is not set,
or en if all of them are set. -/
def find_next_zero_bit (bits : List Nat) (en pos : Nat) : Nat :=
  find_next_zero_go bits en (bits.length + 1) pos

/-- State of the PAGE_CHUNK_TYPE_BALLOON buffer: the descriptors queued
behind vb->balloon_page_chunk_hdr, and the flush history (each flush on
this buffer uses the sleeping wait, busy_wait = false). -/
structure BalloonChunkSt where
  cur : List (Nat × Nat)
  sent : List (List (Nat × Nat))
deriving Repr, DecidableEq

def emptyBalloonChunkSt : BalloonChunkSt := { cur := [], sent := [] }

/-- send_page_chunks for the balloon buffer (success path): submit the
queued descriptors, wait, reset hdr->chunks to zero. -/
def send_page_chunks_balloon (st : BalloonChunkSt) : BalloonChunkSt :=
  { cur := [], sent := st.sent ++ [st.cur] }

/-- add_one_chunk (lines 264-290) for the balloon buffer: append one
descriptor with base and size scaled by the wire shifts, and flush
eagerly when the count reaches MAX_PAGE_CHUNKS. -/
def add_one_chunk_balloon (st : BalloonChunkSt) (base size : Nat) :
    BalloonChunkSt :=
  let cur := st.cur ++
    [(base <<< VIRTIO_BALLOON_CHUNK_BASE_SHIFT,
      size <<< VIRTIO_BALLOON_CHUNK_SIZE_SHIFT)]
  if cur.length = MAX_PAGE_CHUNKS then
    send_page_chunks_balloon { st with cur := cur }
  else { st with cur := cur }

/-- All balloon chunk descriptors a state has produced, flushed plus
still queued. -/
def allBalloonChunks (st : BalloonChunkSt) : List (Nat × Nat) :=
  st.sent.flatten ++ st.cur

/-- Scan loop of chunking_pages_from_bmap (lines 300-318): find the next
set bit; if inside the window, find the next zero bit after it; the run
in between becomes one chunk; continue after the run.  Each emitted run
consumes at least one set bit, so fuel = bits.length + 1 suffices. -/
def chunking_go (bits : List Nat) (pfn_start en : Nat) :
    Nat → Nat → BalloonChunkSt → BalloonChunkSt
  | 0, _, st => st
  | fuel+1, pos, st =>
    if pos < en then
      let one := find_next_bit bits en pos
      if one < en then
        let zeroBit := find_next_zero_bit bits en (one + 1)
        let chunk_size := if zeroBit ≥ en then en - one else zeroBit - one
        let st2 := if chunk_size ≠ 0 then
            add_one_chunk_balloon st (pfn_start + one) chunk_size
          else st
        chunking_go bits pfn_start en fuel (one + chunk_size) st2
      else st
    else st

/-- chunking_pages_from_bmap (lines 292-319): encode the runs of one
bitmap window of len bytes into chunks based at pfn_start. -/
def chunking_pages_from_bmap (bits : List Nat) (pfn_start len : Nat)
    (st : BalloonChunkSt) : BalloonChunkSt :=
  chunking_go bits pfn_start (len * BITS_PER_BYTE) (bits.length + 1) 0 st

/-- extend_page_bmap_size (lines 177-195): number of page_bmap buffers
after extension for a pfn span, every allocation succeeding:
bmap_len = ALIGN(ALIGN(pfns, BITS_PER_LONG) / BITS_PER_BYTE,
PAGE_BMAP_SIZE), capped at PAGE_BMAP_COUNT_MAX buffers. -/
def extend_page_bmap_size (pfns : Nat) : Nat :=
  min (roundup (roundup pfns BITS_PER_LONG / BITS_PER_BYTE) PAGE_BMAP_SIZE
        / PAGE_BMAP_SIZE)
      PAGE_BMAP_COUNT_MAX

/-- Number of page_bmap buffers tell_host (lines 321-347) derives from
the recorded pfn range and then scans: pfns = pfn_stop - pfn_start + 1
rounded up to BITS_PER_LONG and then to PFNS_PER_PAGE_BMAP, divided by
PFNS_PER_PAGE_BMAP. -/
def tell_host_page_bmaps (pfn_start pfn_stop : Nat) : Nat :=
  roundup (roundup (pfn_stop - pfn_start + 1) BITS_PER_LONG)
      PFNS_PER_PAGE_BMAP / PFNS_PER_PAGE_BMAP

/-- The contents of window i of a pass: set_page_bmap stores a page with
offset o = balloon_pfn - pfn_start at bmap_idx = o / PFNS_PER_PAGE_BMAP
and bmap_pos = o mod PFNS_PER_PAGE_BMAP (lines 407-411). -/
def windowBits (offs : List Nat) (i : Nat) : List Nat :=
  offs.filterMap (fun o =>
    if o / PFNS_PER_PAGE_BMAP = i then some (o % PFNS_PER_PAGE_BMAP) else none)

/-- tell_host on the chunking path (lines 323-347): derive the window
count from the recorded range, run the chunk encoder over each window
(the last window takes the leftover length), then flush any remaining
descriptors. -/
def tell_host_chunks (offs : List Nat) (pfn_start pfn_stop : Nat)
    (st : BalloonChunkSt) : BalloonChunkSt :=
  let page_bmaps := tell_host_page_bmaps pfn_start pfn_stop
  let pfns_len := roundup (roundup (pfn_stop - pfn_start + 1) BITS_PER_LONG)
      PFNS_PER_PAGE_BMAP / BITS_PER_BYTE
  let st1 := (List.range page_bmaps).foldl (fun s i =>
    let bmap_len := if i + 1 = page_bmaps
      then pfns_len - PAGE_BMAP_SIZE * i else PAGE_BMAP_SIZE
    chunking_pages_from_bmap (windowBits offs i)
      (pfn_start + i * PFNS_PER_PAGE_BMAP) bmap_len s) st
  if st1.cur.length > 0 then send_page_chunks_balloon st1 else st1

/-- The pass loop of set_page_bmap (lines 393-420): starting from the
rounded pfn_min, each pass covers [pfn_start, pfn_stop] with pfn_stop =
min(pfn_start + PFNS_PER_PAGE_BMAP * page_bmaps, pfn_max), and the next
pass starts at pfn_stop.  Fuel: each pass advances pfn_start by
PFNS_PER_PAGE_BMAP * B except the last, so span / (PFNS_PER_PAGE_BMAP *
B) + 2 iterations suffice. -/
def passes_go (B pfn_max : Nat) : Nat → Nat → List (Nat × Nat)
  | 0, _ => []
  | fuel+1, pfn_start =>
    if pfn_start < pfn_max then
      let pfn_stop := min (pfn_start + PFNS_PER_PAGE_BMAP * B) pfn_max
      (pfn_start, pfn_stop) :: passes_go B pfn_max fuel pfn_stop
    else []

/-- The sequence of (pfn_start, pfn_stop) windows set_page_bmap iterates
for a recorded range, after rounding pfn_min down and pfn_max up to
BITS_PER_LONG and extending the page_bmap pool for the span. -/
def set_page_bmap_passes (pfn_min0 pfn_max0 : Nat) : List (Nat × Nat) :=
  let pfn_min := rounddown pfn_min0 BITS_PER_LONG
  let pfn_max := roundup pfn_max0 BITS_PER_LONG
  let B := extend_page_bmap_size (pfn_max - pfn_min + 1)
  passes_go B pfn_max
    ((pfn_max - pfn_min) / (PFNS_PER_PAGE_BMAP * B) + 2) pfn_min

/-- set_page_bmap (lines 380-422) as a chunk producer: for each pass,
collect the offsets of the pages whose balloon pfn lies in
[pfn_start, pfn_stop] (inclusive on both ends, as the range test on
line 405 skips only pfn < pfn_start and pfn > pfn_stop), and if any
page fell into the pass, run tell_host over the loaded windows. -/
def set_page_bmap_enc (pages : List Nat) (pfn_min0 pfn_max0 : Nat)
    (st : BalloonChunkSt) : BalloonChunkSt :=
  (set_page_bmap_passes pfn_min0 pfn_max0).foldl (fun s pass =>
    let offs := pages.filterMap (fun p =>
      if pass.1 ≤ p ∧ p ≤ pass.2 then some (p - pass.1) else none)
    if offs.isEmpty then s else tell_host_chunks offs pass.1 pass.2 s) st

/-- One inflate or deflate batch through the RLE path: the pfn range
tracker starts at (ULONG_MAX, 0) (init_page_bmap_range, lines 161-165),
is widened once per page touched (update_page_bmap_range, lines
167-174), and set_page_bmap runs only when the batch is non-empty
(lines 464-470 and 530-535). -/
def encode_batch (pages : List Nat) (st : BalloonChunkSt) : BalloonChunkSt :=
  let pfn_min0 := pages.foldl min ULONG_MAX
  let pfn_max0 := pages.foldl max 0
  if pages.isEmpty then st else set_page_bmap_enc pages pfn_min0 pfn_max0 st

/-- Decoding a wire chunk back to a (first pfn, run length) pair. -/
def decode_chunk (c : Nat × Nat) : Nat × Nat :=
  (c.1 >>> VIRTIO_BALLOON_CHUNK_BASE_SHIFT,
   c.2 >>> VIRTIO_BALLOON_CHUNK_SIZE_SHIFT)

/-- Sanity check of the encoder on a single page whose balloon pfn is
not a multiple of BITS_PER_LONG: exactly one chunk of size one is
emitted, as the spec requires. -/
theorem encode_batch_single_unaligned :
    (allBalloonChunks (encode_batch [65] emptyBalloonChunkSt)).map decode_chunk
      = [(65, 1)] := by
  decide

/-- Sanity check of the encoder on a contiguous run: the pages with
balloon pfns 70..73 produce exactly one chunk of size 4. -/
theorem encode_batch_contiguous_run :
    (allBalloonChunks (encode_batch [70, 71, 72, 73] emptyBalloonChunkSt)).map
        decode_chunk
      = [(70, 4)] := by
  decide

/-- Claim C7, evaluated at the failing input: a batch whose touched span
is exactly the single balloon pfn 64 (a multiple of BITS_PER_LONG)
emits no chunk at all instead of one chunk of size one: rounddown and
roundup leave pfn_min = pfn_max = 64, so the window loop of
set_page_bmap (condition pfn_start < pfn_max) never executes and
tell_host is never called. -/
theorem C7_aligned_single_pfn_emits_nothing :
    allBalloonChunks (encode_batch [64] emptyBalloonChunkSt) = []
    ∧ set_page_bmap_passes 64 64 = []
    ∧ 64 % BITS_PER_LONG = 0 := by
  decide

/-- Claim C2, evaluated at the failing input: the balloon pfn set
{0, 9000000} (span 9000001, needing 35 windows) caps the page_bmap pool
at PAGE_BMAP_COUNT_MAX = 32 buffers and is processed in two passes; in
the first pass pfn_stop - pfn_start + 1 = 2 ^ 23 + 1 rounds up to 33
windows, so tell_host scans one more page_bmap buffer than exists. -/
theorem C2_multipass_scans_unallocated_window :
    extend_page_bmap_size
        (roundup 9000000 BITS_PER_LONG - rounddown 0 BITS_PER_LONG + 1)
      = PAGE_BMAP_COUNT_MAX
    ∧ set_page_bmap_passes 0 9000000 = [(0, 8388608), (8388608, 9000000)]
    ∧ tell_host_page_bmaps 0 8388608 = PAGE_BMAP_COUNT_MAX + 1 := by
  decide

/-
The migration swap protocol (virtballoon_migratepage, lines 901-950).
The two encodings notify the host differently: the legacy branch runs
set_page_pfns and tell_host, a submit-kick-wait cycle that completes
before the function proceeds; the chunking branch runs
tell_host_one_page, which is only add_one_chunk on the shared balloon
chunk buffer and submits nothing unless that buffer happens to reach
MAX_PAGE_CHUNKS.  The model threads the buffer through the call and
records the sequence of observable events.
-/
inductive MigEvent where
  | getNewRef
  | insertNew
  | addInflateChunk
  | tellInflateLegacy
  | deleteOld
  | addDeflateChunk
  | tellDeflateLegacy
  | unlockBalloon
  | putOldPage
deriving Repr, DecidableEq

/-- tell_host_one_page (lines 877-881): add_one_chunk of one descriptor
with base = page_to_pfn(page) and size 1 on the balloon chunk buffer.
Nothing is submitted here; a flush happens only if the buffer reaches
MAX_PAGE_CHUNKS inside add_one_chunk. -/
def tell_host_one_page (pfn : Nat) (st : BalloonChunkSt) : BalloonChunkSt :=
  add_one_chunk_balloon st pfn 1

/-- Event sequence of virtballoon_migratepage after winning the trylock
with the chunk feature negotiated: both host notifications are only
queued (addInflateChunk, addDeflateChunk) before unlock and put_page. -/
def migChunkingTrace : List MigEvent :=
  [.getNewRef, .insertNew, .addInflateChunk, .deleteOld, .addDeflateChunk,
   .unlockBalloon, .putOldPage]

/-- Event sequence after winning the trylock on the legacy path: each
notification is a completed submit-kick-wait tell_host cycle. -/
def migLegacyTrace : List MigEvent :=
  [.getNewRef, .insertNew, .tellInflateLegacy, .deleteOld, .tellDeflateLegacy,
   .unlockBalloon, .putOldPage]

/-- virtballoon_migratepage (lines 901-950): on trylock failure return
-EAGAIN with nothing done; otherwise get_page(newpage), insert newpage,
notify the host of it (queue one chunk, or legacy submit-and-wait),
balloon_page_delete the old page, notify the host of it the same way,
mutex_unlock, put_page.  The balloon chunk buffer is threaded through
the chunking branch; the legacy branch does not touch it. -/
def virtballoon_migratepage (chunking lockAcquired : Bool)
    (newPfn oldPfn : Nat) (st : BalloonChunkSt) :
    Except Int (List MigEvent × BalloonChunkSt) :=
  if lockAcquired then
    if chunking then
      .ok (migChunkingTrace,
        tell_host_one_page oldPfn (tell_host_one_page newPfn st))
    else
      .ok (migLegacyTrace, st)
  else .error (-11)

/-- Accounting for one in-flight migration: first component is the size
of the ledger collection, second the number of pages the host has
actually been told are surrendered.  balloon_page_insert grows the
collection (the old page was already isolated off it); a completed
legacy notification moves the host view; queueing a chunk completes no
notification and leaves the host view unchanged. -/
def mig_step : Nat × Nat → MigEvent → Nat × Nat
  | (ledger, host), .insertNew => (ledger + 1, host)
  | (ledger, host), .tellInflateLegacy => (ledger, host + 1)
  | (ledger, host), .tellDeflateLegacy => (ledger, host - 1)
  | st, _ => st

def mig_run (init : Nat × Nat) (evs : List MigEvent) : Nat × Nat :=
  evs.foldl mig_step init

/-- On the legacy path the migration protocol is as specified: the host
is told about the new page (submit and wait for the ack) strictly
before it is told about the old one, both completed notifications
precede unlock and put_page, and starting from a ledger of L pages with
the host still counting the isolated old page (L + 1) the host view
never underestimates the ledger size at any prefix of the trace. -/
theorem migratepage_legacy_notifies_in_order (newPfn oldPfn : Nat)
    (st : BalloonChunkSt) (L n : Nat) :
    virtballoon_migratepage false true newPfn oldPfn st
        = .ok (migLegacyTrace, st)
    ∧ migLegacyTrace.indexOf .tellInflateLegacy
        < migLegacyTrace.indexOf .tellDeflateLegacy
    ∧ migLegacyTrace.indexOf .tellDeflateLegacy
        < migLegacyTrace.indexOf .unlockBalloon
    ∧ migLegacyTrace.indexOf .tellDeflateLegacy
        < migLegacyTrace.indexOf .putOldPage
    ∧ (mig_run (L, L + 1) (migLegacyTrace.take n)).1
        ≤ (mig_run (L, L + 1) (migLegacyTrace.take n)).2 := by
  refine ⟨rfl, by decide, by decide, by decide, ?_⟩
  match n with
  | 0 => simp [mig_run, migLegacyTrace]
  | 1 => simp [mig_run, migLegacyTrace, mig_step]
  | 2 => simp [mig_run, migLegacyTrace, mig_step]
  | 3 => simp [mig_run, migLegacyTrace, mig_step]
  | 4 => simp [mig_run, migLegacyTrace, mig_step]
  | 5 => simp [mig_run, migLegacyTrace, mig_step]
  | 6 => simp [mig_run, migLegacyTrace, mig_step]
  | (m+7) =>
    rw [List.take_of_length_le (by simp [migLegacyTrace])]
    simp [mig_run, migLegacyTrace, mig_step]

/-- Claim C3, evaluated at the failing input: with the chunk feature
negotiated and the balloon chunk buffer empty, a migration of the page
at pfn 5 to the replacement at pfn 7 runs to completion - the trace
ends with unlockBalloon and then putOldPage - while the chunk buffer
shows sent = [], so no submission (let alone an acknowledgment) of
either notification happened before the lock was dropped and the old
page released; both one-page descriptors are still queued, the
replacement page first. -/
theorem C3_chunking_migration_defers_notifications :
    virtballoon_migratepage true true 7 5 emptyBalloonChunkSt
      = .ok (migChunkingTrace,
          { cur := [(7 <<< VIRTIO_BALLOON_CHUNK_BASE_SHIFT,
                      1 <<< VIRTIO_BALLOON_CHUNK_SIZE_SHIFT),
                    (5 <<< VIRTIO_BALLOON_CHUNK_BASE_SHIFT,
                      1 <<< VIRTIO_BALLOON_CHUNK_SIZE_SHIFT)],
            sent := [] })
    ∧ migChunkingTrace.getLast? = some .putOldPage
    ∧ migChunkingTrace.indexOf .unlockBalloon
        < migChunkingTrace.indexOf .putOldPage := by
  refine ⟨rfl, rfl, by decide⟩

/-
The unused-page inquiry responder (miscq_send_unused_pages, lines
728-761).  The external allocator is the oracle freeBlocks: for a zone,
an order and a migratetype it yields the page frame numbers of the free
blocks that successive inquire_unused_page_block calls return before
the call that reports exhaustion.  MAX_ORDER and MIGRATE_TYPES are
kernel configuration constants and are passed as parameters.
-/

/-- State of the PAGE_CHUNK_TYPE_UNUSED buffer: the complete flag of
miscq_out_hdr, the queued descriptors and the flush history; each sent
entry records the descriptors, the flag value at submission time and
whether the flush busy-waited. -/
structure MiscqSt where
  flagsComplete : Bool
  cur : List (Nat × Nat)
  sent : List (List (Nat × Nat) × Bool × Bool)
deriving Repr, DecidableEq

/-- send_page_chunks for the unused buffer (success path): submit the
miscq header plus descriptors, wait in the requested mode, reset the
count. -/
def send_page_chunks_unused (busy : Bool) (st : MiscqSt) : MiscqSt :=
  { st with cur := [], sent := st.sent ++ [(st.cur, st.flagsComplete, busy)] }

/-- add_one_chunk for the unused buffer: append one scaled descriptor
and flush eagerly (non-busy wait) at MAX_PAGE_CHUNKS. -/
def add_one_chunk_unused (st : MiscqSt) (base size : Nat) : MiscqSt :=
  let cur := st.cur ++
    [(base <<< VIRTIO_BALLOON_CHUNK_BASE_SHIFT,
      size <<< VIRTIO_BALLOON_CHUNK_SIZE_SHIFT)]
  if cur.length = MAX_PAGE_CHUNKS then
    send_page_chunks_unused false { st with cur := cur }
  else { st with cur := cur }

/-- The wire descriptor for a free block of a given order at a given
page frame number: base = pfn, size = 2 ^ order, both scaled. -/
def unusedChunk (pfn o : Nat) : Nat × Nat :=
  (pfn <<< VIRTIO_BALLOON_CHUNK_BASE_SHIFT,
   (2 ^ o) <<< VIRTIO_BALLOON_CHUNK_SIZE_SHIFT)

/-- The do-while of lines 745-755: keep asking for one free block of
this order and type, emitting a chunk per block, until the allocator
reports exhaustion. -/
def inquire_loop (o : Nat) (blocks : List Nat) (st : MiscqSt) : MiscqSt :=
  blocks.foldl (fun s pfn => add_one_chunk_unused s pfn (2 ^ o)) st

/-- The migratetype loop of lines 743-744: migratetype ranges over
0 .. nMT - 1 in increasing order. -/
def miscq_mt_loop (freeB : Nat → List Nat) (o nMT : Nat) (st : MiscqSt) :
    MiscqSt :=
  (List.range nMT).foldl (fun s mt => inquire_loop o (freeB mt) s) st

/-- The order loop of line 742, for (order = MAX_ORDER - 1; order > 0;
order--): called with MAX_ORDER - 1, it visits the orders downward and
stops before order 0. -/
def miscq_order_loop (freeB : Nat → Nat → List Nat) (nMT : Nat) :
    Nat → MiscqSt → MiscqSt
  | 0, st => st
  | o+1, st => miscq_order_loop freeB nMT o (miscq_mt_loop (freeB (o+1)) (o+1) nMT st)

/-- miscq_send_unused_pages (lines 728-761): clear the flags, walk every
populated zone, the order classes from MAX_ORDER - 1 downward while
order > 0, and every migratetype; then set the complete flag and flush
with busy-wait. -/
def miscq_send_unused_pages (maxOrder nMT : Nat) (zones : List Nat)
    (freeBlocks : Nat → Nat → Nat → List Nat) : MiscqSt :=
  let st0 : MiscqSt := { flagsComplete := false, cur := [], sent := [] }
  let st1 := zones.foldl (fun s z =>
    miscq_order_loop (fun o mt => freeBlocks z o mt) nMT (maxOrder - 1) s) st0
  send_page_chunks_unused true { st1 with flagsComplete := true }

/-- All unused-page chunk descriptors a state has produced. -/
def allUnusedChunks (st : MiscqSt) : List (Nat × Nat) :=
  (st.sent.map (fun e => e.1)).flatten ++ st.cur

/-- The order classes the responder visits: maxOrder - 1 down to 1. -/
def ordersDesc : Nat → List Nat
  | 0 => []
  | o+1 => (o+1) :: ordersDesc o

lemma allUnusedChunks_add (st : MiscqSt) (base size : Nat) :
    allUnusedChunks (add_one_chunk_unused st base size)
        = allUnusedChunks st ++
          [(base <<< VIRTIO_BALLOON_CHUNK_BASE_SHIFT,
            size <<< VIRTIO_BALLOON_CHUNK_SIZE_SHIFT)]
    ∧ (add_one_chunk_unused st base size).flagsComplete = st.flagsComplete := by
  unfold add_one_chunk_unused
  by_cases h : st.cur.length + 1 = MAX_PAGE_CHUNKS
  · simp [h, send_page_chunks_unused, allUnusedChunks]
  · simp [h, allUnusedChunks]

lemma foldl_chunks_hom {α : Type} (f : MiscqSt → α → MiscqSt)
    (g : α → List (Nat × Nat))
    (hf : ∀ s a, allUnusedChunks (f s a) = allUnusedChunks s ++ g a
        ∧ (f s a).flagsComplete = s.flagsComplete) :
    ∀ (l : List α) (s : MiscqSt),
      allUnusedChunks (l.foldl f s) = allUnusedChunks s ++ l.flatMap g
      ∧ (l.foldl f s).flagsComplete = s.flagsComplete := by
  intro l
  induction l with
  | nil => intro s; simp
  | cons a l ih =>
    intro s
    rcases ih (f s a) with ⟨ih1, ih2⟩
    rcases hf s a with ⟨hf1, hf2⟩
    constructor
    · rw [List.foldl_cons, ih1, hf1]
      simp
    · rw [List.foldl_cons, ih2, hf2]

lemma inquire_loop_chunks (o : Nat) (blocks : List Nat) (st : MiscqSt) :
    allUnusedChunks (inquire_loop o blocks st)
        = allUnusedChunks st ++ blocks.map (fun pfn => unusedChunk pfn o)
    ∧ (inquire_loop o blocks st).flagsComplete = st.flagsComplete := by
  have h := foldl_chunks_hom (fun s pfn => add_one_chunk_unused s pfn (2 ^ o))
    (fun pfn => [unusedChunk pfn o])
    (fun s pfn => by simpa [unusedChunk] using allUnusedChunks_add s pfn (2 ^ o))
    blocks st
  rcases h with ⟨h1, h2⟩
  refine ⟨?_, h2⟩
  rw [inquire_loop, h1, ← List.map_eq_flatMap]

lemma miscq_mt_loop_chunks (freeB : Nat → List Nat) (o nMT : Nat)
    (st : MiscqSt) :
    allUnusedChunks (miscq_mt_loop freeB o nMT st)
        = allUnusedChunks st ++ (List.range nMT).flatMap (fun mt =>
            (freeB mt).map (fun pfn => unusedChunk pfn o))
    ∧ (miscq_mt_loop freeB o nMT st).flagsComplete = st.flagsComplete := by
  exact foldl_chunks_hom (fun s mt => inquire_loop o (freeB mt) s)
    (fun mt => (freeB mt).map (fun pfn => unusedChunk pfn o))
    (fun s mt => inquire_loop_chunks o (freeB mt) s) (List.range nMT) st

lemma miscq_order_loop_chunks (freeB : Nat → Nat → List Nat) (nMT : Nat) :
    ∀ (o : Nat) (st : MiscqSt),
      allUnusedChunks (miscq_order_loop freeB nMT o st)
          = allUnusedChunks st ++ (ordersDesc o).flatMap (fun o2 =>
              (List.range nMT).flatMap (fun mt =>
                (freeB o2 mt).map (fun pfn => unusedChunk pfn o2)))
      ∧ (miscq_order_loop freeB nMT o st).flagsComplete = st.flagsComplete := by
  intro o
  induction o with
  | zero => intro st; simp [miscq_order_loop, ordersDesc]
  | succ o ih =>
    intro st
    rcases ih (miscq_mt_loop (freeB (o+1)) (o+1) nMT st) with ⟨ih1, ih2⟩
    rcases miscq_mt_loop_chunks (freeB (o+1)) (o+1) nMT st with ⟨hm1, hm2⟩
    constructor
    · rw [miscq_order_loop, ih1, hm1]
      simp [ordersDesc]
    · rw [miscq_order_loop, ih2, hm2]

/-- Counterexample to claim C8: an allocator whose only free block has
order 0 (one zone, block at pfn 5) makes the responder emit no chunk at
all, because the order loop runs only while order > 0 and never
inquires order 0; the claim requires one descriptor per free block over
all block-order classes. -/
theorem C8_order_zero_block_counterexample :
    allUnusedChunks (miscq_send_unused_pages 11 6 [0]
        (fun z o mt => if z = 0 ∧ o = 0 ∧ mt = 0 then [5] else [])) = []
    ∧ (fun z o mt => if z = 0 ∧ o = 0 ∧ mt = 0 then [5] else [] : Nat → Nat → Nat → List Nat) 0 0 0 = [5]
    ∧ ¬ allUnusedChunks (miscq_send_unused_pages 11 6 [0]
        (fun z o mt => if z = 0 ∧ o = 0 ∧ mt = 0 then [5] else []))
      = [unusedChunk 5 0] := by
  refine ⟨by decide, by decide, ?_⟩
  intro h
  have : ([] : List (Nat × Nat)) = [unusedChunk 5 0] := by
    rw [← h]
    decide
  simp [unusedChunk] at this

/-- Claim C8 as amended: the responder emits one descriptor
(base = block pfn, size = 2 ^ order, both wire-scaled) for every free
block the allocator reports, iterating all populated zones, the
block-order classes from MAX_ORDER - 1 down to 1 (order 0 is not
inquired) and all migratetype classes, in that nesting order; at the
end every descriptor has been flushed, and the final flush carries the
complete flag and busy-waits. -/
theorem C8_unused_pages_inquiry_amended (maxOrder nMT : Nat)
    (zones : List Nat) (freeBlocks : Nat → Nat → Nat → List Nat) :
    allUnusedChunks (miscq_send_unused_pages maxOrder nMT zones freeBlocks)
      = zones.flatMap (fun z => (ordersDesc (maxOrder - 1)).flatMap (fun o =>
          (List.range nMT).flatMap (fun mt =>
            (freeBlocks z o mt).map (fun pfn => unusedChunk pfn o))))
    ∧ (miscq_send_unused_pages maxOrder nMT zones freeBlocks).cur = []
    ∧ ((miscq_send_unused_pages maxOrder nMT zones freeBlocks).sent.getLast?).map
          (fun e => e.2)
        = some (true, true) := by
  unfold miscq_send_unused_pages
  rcases foldl_chunks_hom
      (fun s z => miscq_order_loop (fun o mt => freeBlocks z o mt) nMT
        (maxOrder - 1) s)
      (fun z => (ordersDesc (maxOrder - 1)).flatMap (fun o =>
        (List.range nMT).flatMap (fun mt =>
          (freeBlocks z o mt).map (fun pfn => unusedChunk pfn o))))
      (fun s z => miscq_order_loop_chunks (fun o mt => freeBlocks z o mt)
        nMT (maxOrder - 1) s)
      zones { flagsComplete := false, cur := [], sent := [] }
    with ⟨h1, _⟩
  refine ⟨?_, rfl, ?_⟩
  · simp only [send_page_chunks_unused, allUnusedChunks] at h1 ⊢
    simp at h1 ⊢
    simpa using h1
  · simp [send_page_chunks_unused]

lemma set_page_pfns_idem (K : Nat) (arr : Nat → Nat) (idx p : Nat) :
    set_page_pfns K (set_page_pfns K arr idx p) idx p
      = set_page_pfns K arr idx p := by
  funext j
  unfold set_page_pfns
  by_cases h : idx ≤ j ∧ j < idx + K <;> simp [h]

/-- Modelled from the spec: the deflate loop with the fill-once
semantics the spec prescribes for the non-chunking path, one
set_page_pfns call per dequeued page; used to compare against leak_loop,
whose non-chunking branch calls the helper twice. -/
def leak_loop_fill_once (K num : Nat) :
    Nat → Nat → BalloonState → (Nat → Nat) → List Nat → LeakResult
  | 0, num_pfns, s, arr, rem => ⟨s, arr, num_pfns, rem⟩
  | fuel+1, num_pfns, s, arr, rem =>
    if num_pfns < num then
      match s.pages with
      | [] => ⟨s, arr, num_pfns, rem⟩
      | p :: rest =>
        leak_loop_fill_once K num fuel (num_pfns + K)
          { num_pages := s.num_pages - K, pages := rest }
          (set_page_pfns K arr num_pfns p) (p :: rem)
    else ⟨s, arr, num_pfns, rem⟩

lemma leak_loop_fill_once_succ_step (K num : Nat)
    (fuel num_pfns : Nat) (s : BalloonState) (arr : Nat → Nat)
    (rem : List Nat) (p : Nat) (rest : List Nat)
    (hlt : num_pfns < num) (hp : s.pages = p :: rest) :
    leak_loop_fill_once K num (fuel+1) num_pfns s arr rem
      = leak_loop_fill_once K num fuel (num_pfns + K)
          { num_pages := s.num_pages - K, pages := rest }
          (set_page_pfns K arr num_pfns p) (p :: rem) := by
  simp [leak_loop_fill_once, hlt, hp]

lemma leak_loop_false_eq_fill_once (K num : Nat) :
    ∀ fuel num_pfns s arr rem,
      leak_loop K num false fuel num_pfns s arr rem
        = leak_loop_fill_once K num fuel num_pfns s arr rem := by
  intro fuel
  induction fuel with
  | zero => intro np s arr rem; rfl
  | succ fuel ih =>
    intro np s arr rem
    by_cases hlt : np < num
    · rcases hp : s.pages with _ | ⟨p, rest⟩
      · simp [leak_loop, leak_loop_fill_once, hlt, hp]
      · rw [leak_loop_succ_step K num false fuel np s arr rem p rest hlt hp,
          leak_loop_fill_once_succ_step K num fuel np s arr rem p rest hlt hp]
        simp only [Bool.false_eq_true, if_false, set_page_pfns_idem]
        exact ih _ _ _ _
    · simp [leak_loop, leak_loop_fill_once, hlt]

lemma leak_fill_once_arr_lo (K num : Nat) :
    ∀ fuel num_pfns s arr rem j, j < num_pfns →
      (leak_loop_fill_once K num fuel num_pfns s arr rem).arr j = arr j := by
  intro fuel
  induction fuel with
  | zero => intro np s arr rem j _; rfl
  | succ fuel ih =>
    intro np s arr rem j hj
    by_cases hlt : np < num
    · rcases hp : s.pages with _ | ⟨p, rest⟩
      · simp [leak_loop_fill_once, hlt, hp]
      · rw [leak_loop_fill_once_succ_step K num fuel np s arr rem p rest hlt hp]
        rw [ih (np + K) _ _ _ j (by omega)]
        unfold set_page_pfns
        have : ¬ (np ≤ j ∧ j < np + K) := by omega
        simp [this]
    · simp [leak_loop_fill_once, hlt]

lemma leak_fill_once_arr (K num : Nat) :
    ∀ fuel num_pfns s arr rem g i, i < K →
      num_pfns + (g * K + i)
          < (leak_loop_fill_once K num fuel num_pfns s arr rem).num_pfns →
      (leak_loop_fill_once K num fuel num_pfns s arr rem).arr
          (num_pfns + (g * K + i))
        = s.pages.getD g 0 * K + i := by
  intro fuel
  induction fuel with
  | zero =>
    intro np s arr rem g i _ hb
    rw [show leak_loop_fill_once K num 0 np s arr rem = ⟨s, arr, np, rem⟩
      from rfl] at hb
    exact absurd hb (by dsimp only; omega)
  | succ fuel ih =>
    intro np s arr rem g i hi hb
    by_cases hlt : np < num
    · rcases hp : s.pages with _ | ⟨p, rest⟩
      · rw [show leak_loop_fill_once K num (fuel+1) np s arr rem
              = ⟨s, arr, np, rem⟩ by simp [leak_loop_fill_once, hlt, hp]] at hb
        exact absurd hb (by dsimp only; omega)
      · rw [leak_loop_fill_once_succ_step K num fuel np s arr rem p rest hlt hp]
          at hb ⊢
        rcases g with _ | g
        · have hin : np ≤ np + (0 * K + i) ∧ np + (0 * K + i) < np + K := by omega
          rw [leak_fill_once_arr_lo K num fuel (np + K) _ _ _ _ hin.2]
          unfold set_page_pfns
          rw [if_pos hin]
          simp only [hp, List.getD_cons_zero]
          congr 1
          omega
        · have hidx : np + ((g + 1) * K + i) = (np + K) + (g * K + i) := by ring
          rw [hidx] at hb ⊢
          rw [ih (np + K) _ _ _ g i hi hb]
          simp [hp]
    · rw [show leak_loop_fill_once K num (fuel+1) np s arr rem
            = ⟨s, arr, np, rem⟩ by simp [leak_loop_fill_once, hlt]] at hb
      exact absurd hb (by dsimp only; omega)

/-- Modelled from the spec: leak_balloon with the fill-once deflate
loop, same clamps as the source. -/
def leak_balloon_fill_once (K num0 : Nat) (s : BalloonState)
    (arr : Nat → Nat) : LeakResult :=
  let num1 := min num0 VIRTIO_BALLOON_ARRAY_PFNS_MAX
  let num2 := min num1 VIRTIO_BALLOON_ARRAY_PFNS_MAX
  let num3 := min num2 s.num_pages
  leak_loop_fill_once K num3 num3 0 s arr []

/-- Claim C9: on the non-chunking deflate path, the duplicated
set_page_pfns call has no observable effect: leak_balloon equals the
fill-once variant, and the pfns array entries written by the batch are
exactly the balloon pfns of the pages dequeued from the ledger, in
dequeue order, one K-frame group per page (entry g * K + i holds the
pfn of the g-th dequeued page times K plus i). -/
theorem C9_deflate_pfns_fill_once (K num0 : Nat) (s : BalloonState)
    (arr : Nat → Nat) :
    leak_balloon K false num0 s arr = leak_balloon_fill_once K num0 s arr
    ∧ ∀ g i, i < K →
        g * K + i < (leak_balloon K false num0 s arr).num_pfns →
        (leak_balloon K false num0 s arr).arr (g * K + i)
          = s.pages.getD g 0 * K + i := by
  have heq : leak_balloon K false num0 s arr
      = leak_balloon_fill_once K num0 s arr := by
    unfold leak_balloon leak_balloon_fill_once
    simp only [Bool.false_eq_true, if_false]
    exact leak_loop_false_eq_fill_once K _ _ 0 s arr []
  refine ⟨heq, ?_⟩
  intro g i hi hb
  rw [heq] at hb ⊢
  have := leak_fill_once_arr K
    (min (min (min num0 VIRTIO_BALLOON_ARRAY_PFNS_MAX)
      VIRTIO_BALLOON_ARRAY_PFNS_MAX) s.num_pages)
    (min (min (min num0 VIRTIO_BALLOON_ARRAY_PFNS_MAX)
      VIRTIO_BALLOON_ARRAY_PFNS_MAX) s.num_pages)
    0 s arr [] g i hi
  unfold leak_balloon_fill_once at hb ⊢
  simpa using this (by simpa using hb)

/-- Closed witness for C9: with K = 2 and the ledger holding pages with
pfns 7 and 9, a shrink of 4 balloon units fills pfns[3] (group 1,
offset 1) with 9 * 2 + 1 = 19, and the hypotheses i < K and index
within the batch hold at that input. -/
theorem C9_deflate_pfns_fill_once_witness :
    ((1 : Nat) < 2
      ∧ 1 * 2 + 1 < (leak_balloon 2 false 4
          { num_pages := 4, pages := [7, 9] } (fun _ => 0)).num_pfns)
    ∧ (leak_balloon 2 false 4 { num_pages := 4, pages := [7, 9] }
          (fun _ => 0)).arr (1 * 2 + 1)
        = ({ num_pages := 4, pages := [7, 9] } : BalloonState).pages.getD 1 0
            * 2 + 1 :=
  ⟨⟨by decide, by decide⟩,
    (C9_deflate_pfns_fill_once 2 4 { num_pages := 4, pages := [7, 9] }
      (fun _ => 0)).2 1 1 (by decide) (by decide)⟩

end VirtioBalloon
